import Mathlib

/-!
Verification of the report-ingestion connectors of the `ecomm-datasources`
repository.  The Python sources are shallowly embedded as executable Lean
definitions: HTTP responses become explicit response sequences
(`Nat → Response`), the S3 object store becomes an association list of
key/blob pairs, library calls that can fail (pandas `read_csv`, gzip
decompression, JSON parsing, S3 `put_object`) become oracle parameters, and
Python exceptions become explicit error constructors.  Every definition is
translated from the corresponding source function, which is cited in its
doc comment.
-/

/- ------------------------------------------------------------------ -/
/- Character-list string helpers.  Python string operations that the   -/
/- sources use (`startswith`, `endswith`, `split`, `join`, `replace`,  -/
/- `lower`) are modelled structurally over `String.data` so that all   -/
/- definitions reduce in the kernel.                                   -/
/- ------------------------------------------------------------------ -/

/-- Decidable equality for `Except`, needed to evaluate embedded results
on concrete inputs. -/
instance {a b : Type} [DecidableEq a] [DecidableEq b] :
    DecidableEq (Except a b) := fun x y =>
  match x, y with
  | .ok u, .ok v =>
    if h : u = v then .isTrue (by rw [h]) else .isFalse (by intro hc; cases hc; exact h rfl)
  | .error u, .error v =>
    if h : u = v then .isTrue (by rw [h]) else .isFalse (by intro hc; cases hc; exact h rfl)
  | .ok _, .error _ => .isFalse (by intro hc; cases hc)
  | .error _, .ok _ => .isFalse (by intro hc; cases hc)

/-- The `data` of an appended string is the appended `data`. -/
theorem strData_append (a b : String) : (a ++ b).data = a.data ++ b.data := rfl

/-- Python `p.startswith(q)` as a Bool on character lists. -/
def strStarts (p s : String) : Bool := p.data.isPrefixOf s.data

/-- Python `s.endswith(p)` as a Bool on character lists. -/
def strEnds (p s : String) : Bool := p.data.reverse.isPrefixOf s.data.reverse

/-- Python `s.split(c)` for a one-character separator `c`. -/
def splitOnCharL (c : Char) : List Char → List (List Char)
  | [] => [[]]
  | x :: xs =>
    match splitOnCharL c xs with
    | [] => [[]]
    | h :: t => if x = c then [] :: h :: t else (x :: h) :: t

/-- Python `'.'.join(parts)`. -/
def joinDots : List (List Char) → List Char
  | [] => []
  | [x] => x
  | x :: y :: t => x ++ '.' :: joinDots (y :: t)

/-- Python `s.replace(old, new)` (all occurrences), with structural fuel so
that the definition reduces in the kernel; the fuel is the length of the
subject string, which bounds the number of scanning steps. -/
def replaceAllAux (old new : List Char) : Nat → List Char → List Char
  | _, [] => []
  | 0, l => l
  | fuel + 1, c :: cs =>
    if old.isPrefixOf (c :: cs) then
      new ++ replaceAllAux old new fuel (List.drop (old.length - 1) cs)
    else
      c :: replaceAllAux old new fuel cs

/-- Python `s.replace(old, new)` for nonempty `old`. -/
def strReplace (s old new : String) : String :=
  if old.data.isEmpty then s
  else ⟨replaceAllAux old.data new.data s.data.length s.data⟩

/-- Python `s.lower()`. -/
def strLower (s : String) : String := ⟨s.data.map Char.toLower⟩

/- ------------------------------------------------------------------ -/
/- Abstract report status (spec section 3 data model).                 -/
/- ------------------------------------------------------------------ -/

/-- The abstract report-job states of the spec's data model that a vendor
status string can be mapped to while polling. -/
inductive ReportStatus
  | Pending
  | InProgress
  | Succeeded
  | Failed
  | Rejected
  deriving DecidableEq

/- ------------------------------------------------------------------ -/
/- Amazon Ads poller                                                   -/
/- (src/connectors/src/media/amazon_ads/ecommerce_amzon_ads_ecs.py,    -/
/- AmazonAdvertisingReportProcessor.fetch_report_url).                 -/
/- ------------------------------------------------------------------ -/

/-- The JSON value found at the `url` field of an Amazon Ads status
response: a string, a list, absent, or some other JSON type. -/
inductive UrlVal
  | str (s : String)
  | arr (l : List String)
  | absent
  | other
  deriving DecidableEq

/-- One Amazon Ads report-status response: the code reads
`response_json.get('status')` and `response_json.get('url', [])`. -/
structure AdsResponse where
  status : Option String
  url : UrlVal
  deriving DecidableEq

/-- Outcome of `fetch_report_url` for the Amazon Ads and Instacart
connectors: the returned URL list, or one of the exceptions the code can
raise (report failure, `TypeError` on a bad `url` field, the "No URLs
found" exception, or `TimeoutError` after the retry budget). -/
inductive FetchUrlOutcome
  | ok (urls : List String)
  | reportFailed
  | typeErr
  | noUrls
  | timeout
  deriving DecidableEq

/-- The URL-normalisation block shared verbatim by the Amazon Ads and
Instacart `fetch_report_url`: a string is wrapped into a singleton list, a
list is kept, any other type raises `TypeError`, and an empty result raises
the "No URLs found" exception. -/
def normalizeUrls : UrlVal → FetchUrlOutcome
  | .str s => .ok [s]
  | .arr l => if l.isEmpty then .noUrls else .ok l
  | .absent => .noUrls
  | .other => .typeErr

/-- The Amazon Ads polling loop
(`while retries < max_retries: ...`, ecommerce_amzon_ads_ecs.py lines
162-192).  `resp i` is the JSON of the `i`-th status GET; the `Nat` in the
result is the number of status GETs issued.  The fuel argument is
`max_retries - retries`, so the loop structure is preserved exactly:
status `COMPLETED` returns the normalised URLs, status `FAILURE` raises,
anything else sleeps and retries, and exhausting the budget raises
`TimeoutError`. -/
def adsPollAux (resp : Nat → AdsResponse) : Nat → Nat → FetchUrlOutcome × Nat
  | 0, polls => (.timeout, polls)
  | fuel + 1, polls =>
    let r := resp polls
    if r.status = some "COMPLETED" then (normalizeUrls r.url, polls + 1)
    else if r.status = some "FAILURE" then (.reportFailed, polls + 1)
    else adsPollAux resp fuel (polls + 1)

/-- `AmazonAdvertisingReportProcessor.fetch_report_url`: the loop with the
source's budget `max_retries = 15`, started at `retries = 0`. -/
def adsFetchReportUrl (resp : Nat → AdsResponse) : FetchUrlOutcome × Nat :=
  adsPollAux resp 15 0

/-- The Amazon Ads status mapping read off the branch structure of the
polling loop: `COMPLETED` exits with success, `FAILURE` exits with failure,
and every other string falls through to the retry branch. -/
def adsStatusState (s : Option String) : ReportStatus :=
  if s = some "COMPLETED" then .Succeeded
  else if s = some "FAILURE" then .Failed
  else .InProgress

/-- A status response on which the Amazon Ads loop does not exit. -/
def adsNonTerminal (r : AdsResponse) : Prop :=
  r.status ≠ some "COMPLETED" ∧ r.status ≠ some "FAILURE"

instance (r : AdsResponse) : Decidable (adsNonTerminal r) := by
  unfold adsNonTerminal; infer_instance

/- ------------------------------------------------------------------ -/
/- Amazon Marketing Cloud poller                                       -/
/- (src/amc/chc_ecommerce_usa_amazon_amc_ecs.py,                       -/
/- AmazonMarketingCloudAPI.fetch_report_url).                          -/
/- ------------------------------------------------------------------ -/

/-- One AMC workflow-status response.  The code reads only
`response_json.get('status')`; the `url` field records any signed URL the
vendor might also have put in the response body (the code never reads
it). -/
structure AmcResponse where
  status : Option String
  url : Option String
  deriving DecidableEq

/-- The `self.wf_status` dictionary recorded on a failed or rejected AMC
workflow (chc_ecommerce_usa_amazon_amc_ecs.py lines 196-201): `date` and
`report_type` are initialised to `None` and filled in later by
`process_report_config`. -/
structure WfStatus where
  workflowID : String
  date : Option String
  reportType : Option String
  status : String
  deriving DecidableEq

/-- Outcome of the AMC `fetch_report_url`: success with the returned URL
list, a recorded failure (the function sets `self.wf_status` and returns
`['']` without raising), or `TimeoutError`. -/
inductive AmcOutcome
  | ok (urls : List String)
  | recordedFailure (wf : WfStatus) (ret : List String)
  | timeout
  deriving DecidableEq

/-- The `downloadUrls` endpoint the AMC poller returns on success
(chc_ecommerce_usa_amazon_amc_ecs.py line 159): it is built from the
configured report URL, the instance id and the report id, not taken from
the status response. -/
def amcDownloadUrlsEndpoint (reportUrl instanceId reportId : String) : String :=
  reportUrl ++ "/amc/reporting/" ++ instanceId ++ "/workflowExecutions/" ++
    reportId ++ "/downloadUrls"

/-- The AMC polling loop (chc_ecommerce_usa_amazon_amc_ecs.py lines
169-210): status `SUCCEEDED` returns the singleton `downloadUrls` endpoint
(the string is wrapped into a list by the `isinstance(str)` branch),
status `FAILURE` or `REJECTED` records a `wf_status` entry and returns
`['']`, anything else sleeps and retries, and exhausting the budget raises
`TimeoutError`.  `resp i` is the `i`-th status GET; the `Nat` in the
result counts status GETs. -/
def amcPollAux (resp : Nat → AmcResponse) (reportUrl instanceId reportId : String) :
    Nat → Nat → AmcOutcome × Nat
  | 0, polls => (.timeout, polls)
  | fuel + 1, polls =>
    let r := resp polls
    if r.status = some "SUCCEEDED" then
      (.ok [amcDownloadUrlsEndpoint reportUrl instanceId reportId], polls + 1)
    else if r.status = some "FAILURE" ∨ r.status = some "REJECTED" then
      (.recordedFailure ⟨reportId, none, none, r.status.getD ""⟩ [""], polls + 1)
    else amcPollAux resp reportUrl instanceId reportId fuel (polls + 1)

/-- `AmazonMarketingCloudAPI.fetch_report_url`: the loop with the source's
budget `max_retries = 10`, started at `retries = 0`. -/
def amcFetchReportUrl (resp : Nat → AmcResponse)
    (reportUrl instanceId reportId : String) : AmcOutcome × Nat :=
  amcPollAux resp reportUrl instanceId reportId 10 0

/-- The AMC status mapping read off the branch structure of the polling
loop. -/
def amcStatusState (s : Option String) : ReportStatus :=
  if s = some "SUCCEEDED" then .Succeeded
  else if s = some "FAILURE" then .Failed
  else if s = some "REJECTED" then .Rejected
  else .InProgress

/-- A status response on which the AMC loop does not exit. -/
def amcNonTerminal (r : AmcResponse) : Prop :=
  r.status ≠ some "SUCCEEDED" ∧ r.status ≠ some "FAILURE" ∧
    r.status ≠ some "REJECTED"

instance (r : AmcResponse) : Decidable (amcNonTerminal r) := by
  unfold amcNonTerminal; infer_instance

/- ------------------------------------------------------------------ -/
/- Instacart poller                                                    -/
/- (src/connectors/src/ecomm/instacart/chc_ecommerce_instacart_ecs.py, -/
/- InstaCartReportProcessor.fetch_report_url).                         -/
/- ------------------------------------------------------------------ -/

/-- One Instacart status response: the code reads
`response_json.get('status')` and `response_json.get('s3_location', [])`
from the `data.attributes` object. -/
structure InstaResponse where
  status : Option String
  s3Location : UrlVal
  deriving DecidableEq

/-- The Instacart polling loop (chc_ecommerce_instacart_ecs.py lines
151-181): status `completed` returns the normalised `s3_location`, status
`FAILURE` raises, anything else sleeps and retries, and exhausting the
budget raises `TimeoutError`. -/
def instaPollAux (resp : Nat → InstaResponse) : Nat → Nat → FetchUrlOutcome × Nat
  | 0, polls => (.timeout, polls)
  | fuel + 1, polls =>
    let r := resp polls
    if r.status = some "completed" then (normalizeUrls r.s3Location, polls + 1)
    else if r.status = some "FAILURE" then (.reportFailed, polls + 1)
    else instaPollAux resp fuel (polls + 1)

/-- `InstaCartReportProcessor.fetch_report_url`: the loop with the
source's budget `max_retries = 15`, started at `retries = 0`. -/
def instaFetchReportUrl (resp : Nat → InstaResponse) : FetchUrlOutcome × Nat :=
  instaPollAux resp 15 0

/-- The Instacart status mapping read off the branch structure of the
polling loop. -/
def instaStatusState (s : Option String) : ReportStatus :=
  if s = some "completed" then .Succeeded
  else if s = some "FAILURE" then .Failed
  else .InProgress

/-- A status response on which the Instacart loop does not exit. -/
def instaNonTerminal (r : InstaResponse) : Prop :=
  r.status ≠ some "completed" ∧ r.status ≠ some "FAILURE"

instance (r : InstaResponse) : Decidable (instaNonTerminal r) := by
  unfold instaNonTerminal; infer_instance

/- ------------------------------------------------------------------ -/
/- Poll-budget lemmas.                                                 -/
/- ------------------------------------------------------------------ -/

theorem adsPollAux_polls_le (resp : Nat → AdsResponse) :
    ∀ fuel start, (adsPollAux resp fuel start).2 ≤ start + fuel := by
  intro fuel
  induction fuel with
  | zero => intro start; simp [adsPollAux]
  | succ n ih =>
    intro start
    simp only [adsPollAux]
    split
    · simp
    · split
      · simp
      · have := ih (start + 1); omega

theorem adsPollAux_timeout (resp : Nat → AdsResponse) :
    ∀ fuel start, (∀ i, start ≤ i → i < start + fuel → adsNonTerminal (resp i)) →
      adsPollAux resp fuel start = (.timeout, start + fuel) := by
  intro fuel
  induction fuel with
  | zero => intro start _; simp [adsPollAux]
  | succ n ih =>
    intro start h
    have hs := h start (Nat.le_refl _) (by omega)
    simp only [adsPollAux]
    rw [if_neg hs.1, if_neg hs.2]
    have := ih (start + 1) (fun i h1 h2 => h i (by omega) (by omega))
    rw [this]
    congr 1
    omega

theorem amcPollAux_polls_le (resp : Nat → AmcResponse) (ru ii rid : String) :
    ∀ fuel start, (amcPollAux resp ru ii rid fuel start).2 ≤ start + fuel := by
  intro fuel
  induction fuel with
  | zero => intro start; simp [amcPollAux]
  | succ n ih =>
    intro start
    simp only [amcPollAux]
    split
    · simp
    · split
      · simp
      · have := ih (start + 1); omega

theorem amcPollAux_timeout (resp : Nat → AmcResponse) (ru ii rid : String) :
    ∀ fuel start, (∀ i, start ≤ i → i < start + fuel → amcNonTerminal (resp i)) →
      amcPollAux resp ru ii rid fuel start = (.timeout, start + fuel) := by
  intro fuel
  induction fuel with
  | zero => intro start _; simp [amcPollAux]
  | succ n ih =>
    intro start h
    have hs := h start (Nat.le_refl _) (by omega)
    simp only [amcPollAux]
    rw [if_neg hs.1, if_neg (by rintro (h1 | h2); exact hs.2.1 h1; exact hs.2.2 h2)]
    have := ih (start + 1) (fun i h1 h2 => h i (by omega) (by omega))
    rw [this]
    congr 1
    omega

theorem instaPollAux_polls_le (resp : Nat → InstaResponse) :
    ∀ fuel start, (instaPollAux resp fuel start).2 ≤ start + fuel := by
  intro fuel
  induction fuel with
  | zero => intro start; simp [instaPollAux]
  | succ n ih =>
    intro start
    simp only [instaPollAux]
    split
    · simp
    · split
      · simp
      · have := ih (start + 1); omega

theorem instaPollAux_timeout (resp : Nat → InstaResponse) :
    ∀ fuel start, (∀ i, start ≤ i → i < start + fuel → instaNonTerminal (resp i)) →
      instaPollAux resp fuel start = (.timeout, start + fuel) := by
  intro fuel
  induction fuel with
  | zero => intro start _; simp [instaPollAux]
  | succ n ih =>
    intro start h
    have hs := h start (Nat.le_refl _) (by omega)
    simp only [instaPollAux]
    rw [if_neg hs.1, if_neg hs.2]
    have := ih (start + 1) (fun i h1 h2 => h i (by omega) (by omega))
    rw [this]
    congr 1
    omega

/-- Claim C1: for every job and every retry budget, when no status
response is terminal each polling loop (Amazon Ads, AMC, Instacart)
issues at most `max_attempts` status GETs, then stops polling by raising
the timeout error; the poll count never exceeds the budget. -/
theorem c1_poller_never_exceeds_budget :
    (∀ (resp : Nat → AdsResponse) (m : Nat), (adsPollAux resp m 0).2 ≤ m) ∧
    (∀ (resp : Nat → AdsResponse) (m : Nat),
      (∀ i, i < m → adsNonTerminal (resp i)) →
        adsPollAux resp m 0 = (.timeout, m)) ∧
    (∀ (resp : Nat → AmcResponse) (ru ii rid : String) (m : Nat),
      (amcPollAux resp ru ii rid m 0).2 ≤ m) ∧
    (∀ (resp : Nat → AmcResponse) (ru ii rid : String) (m : Nat),
      (∀ i, i < m → amcNonTerminal (resp i)) →
        amcPollAux resp ru ii rid m 0 = (.timeout, m)) ∧
    (∀ (resp : Nat → InstaResponse) (m : Nat), (instaPollAux resp m 0).2 ≤ m) ∧
    (∀ (resp : Nat → InstaResponse) (m : Nat),
      (∀ i, i < m → instaNonTerminal (resp i)) →
        instaPollAux resp m 0 = (.timeout, m)) := by
  refine ⟨?_, ?_, ?_, ?_, ?_, ?_⟩
  · intro resp m
    have := adsPollAux_polls_le resp m 0; omega
  · intro resp m h
    have := adsPollAux_timeout resp m 0 (fun i _ h2 => h i (by omega))
    simpa using this
  · intro resp ru ii rid m
    have := amcPollAux_polls_le resp ru ii rid m 0; omega
  · intro resp ru ii rid m h
    have := amcPollAux_timeout resp ru ii rid m 0 (fun i _ h2 => h i (by omega))
    simpa using this
  · intro resp m
    have := instaPollAux_polls_le resp m 0; omega
  · intro resp m h
    have := instaPollAux_timeout resp m 0 (fun i _ h2 => h i (by omega))
    simpa using this

/-- Witness for C1: with a constant non-terminal status `WORKING` and the
source budgets (15 for Amazon Ads and Instacart, 10 for AMC), every loop
polls exactly its budget and times out. -/
theorem c1_poller_never_exceeds_budget_witness :
    adsPollAux (fun _ => ⟨some "WORKING", .arr []⟩) 15 0 = (.timeout, 15) ∧
    amcPollAux (fun _ => ⟨some "WORKING", none⟩) "u" "i" "r" 10 0 = (.timeout, 10) ∧
    instaPollAux (fun _ => ⟨some "WORKING", .arr []⟩) 15 0 = (.timeout, 15) :=
  ⟨c1_poller_never_exceeds_budget.2.1 _ 15 (fun i _ => by decide),
   c1_poller_never_exceeds_budget.2.2.2.1 _ "u" "i" "r" 10 (fun i _ => by decide),
   c1_poller_never_exceeds_budget.2.2.2.2.2 _ 15 (fun i _ => by decide)⟩

/- ------------------------------------------------------------------ -/
/- Exit lemmas for the polling loops: when the first terminal status   -/
/- arrives at poll index n within the budget, the loop exits there.    -/
/- ------------------------------------------------------------------ -/

theorem adsPollAux_succeeds (resp : Nat → AdsResponse) :
    ∀ fuel start n, start ≤ n → n - start < fuel →
      (∀ i, start ≤ i → i < n → adsNonTerminal (resp i)) →
      (resp n).status = some "COMPLETED" →
      adsPollAux resp fuel start = (normalizeUrls (resp n).url, n + 1) := by
  intro fuel
  induction fuel with
  | zero => intro start n _ h2 _ _; omega
  | succ f ih =>
    intro start n h1 h2 h3 hc
    by_cases hs : start = n
    · subst hs
      simp only [adsPollAux]
      rw [if_pos hc]
    · have hlt : start < n := by omega
      have hnt := h3 start (Nat.le_refl _) hlt
      simp only [adsPollAux]
      rw [if_neg hnt.1, if_neg hnt.2]
      exact ih (start + 1) n (by omega) (by omega)
        (fun i hi1 hi2 => h3 i (by omega) hi2) hc

theorem adsPollAux_fails (resp : Nat → AdsResponse) :
    ∀ fuel start n, start ≤ n → n - start < fuel →
      (∀ i, start ≤ i → i < n → adsNonTerminal (resp i)) →
      (resp n).status = some "FAILURE" →
      adsPollAux resp fuel start = (.reportFailed, n + 1) := by
  intro fuel
  induction fuel with
  | zero => intro start n _ h2 _ _; omega
  | succ f ih =>
    intro start n h1 h2 h3 hc
    by_cases hs : start = n
    · subst hs
      simp only [adsPollAux]
      rw [if_neg (by rw [hc]; decide), if_pos hc]
    · have hlt : start < n := by omega
      have hnt := h3 start (Nat.le_refl _) hlt
      simp only [adsPollAux]
      rw [if_neg hnt.1, if_neg hnt.2]
      exact ih (start + 1) n (by omega) (by omega)
        (fun i hi1 hi2 => h3 i (by omega) hi2) hc

theorem amcPollAux_succeeds (resp : Nat → AmcResponse) (ru ii rid : String) :
    ∀ fuel start n, start ≤ n → n - start < fuel →
      (∀ i, start ≤ i → i < n → amcNonTerminal (resp i)) →
      (resp n).status = some "SUCCEEDED" →
      amcPollAux resp ru ii rid fuel start =
        (.ok [amcDownloadUrlsEndpoint ru ii rid], n + 1) := by
  intro fuel
  induction fuel with
  | zero => intro start n _ h2 _ _; omega
  | succ f ih =>
    intro start n h1 h2 h3 hc
    by_cases hs : start = n
    · subst hs
      simp only [amcPollAux]
      rw [if_pos hc]
    · have hlt : start < n := by omega
      have hnt := h3 start (Nat.le_refl _) hlt
      simp only [amcPollAux]
      rw [if_neg hnt.1,
        if_neg (by rintro (ha | hb); exact hnt.2.1 ha; exact hnt.2.2 hb)]
      exact ih (start + 1) n (by omega) (by omega)
        (fun i hi1 hi2 => h3 i (by omega) hi2) hc

theorem amcPollAux_recorded (resp : Nat → AmcResponse) (ru ii rid : String) :
    ∀ fuel start n, start ≤ n → n - start < fuel →
      (∀ i, start ≤ i → i < n → amcNonTerminal (resp i)) →
      ((resp n).status = some "FAILURE" ∨ (resp n).status = some "REJECTED") →
      amcPollAux resp ru ii rid fuel start =
        (.recordedFailure ⟨rid, none, none, (resp n).status.getD ""⟩ [""], n + 1) := by
  intro fuel
  induction fuel with
  | zero => intro start n _ h2 _ _; omega
  | succ f ih =>
    intro start n h1 h2 h3 hc
    by_cases hs : start = n
    · subst hs
      simp only [amcPollAux]
      rw [if_neg (by rcases hc with h | h <;> rw [h] <;> decide), if_pos hc]
    · have hlt : start < n := by omega
      have hnt := h3 start (Nat.le_refl _) hlt
      simp only [amcPollAux]
      rw [if_neg hnt.1,
        if_neg (by rintro (ha | hb); exact hnt.2.1 ha; exact hnt.2.2 hb)]
      exact ih (start + 1) n (by omega) (by omega)
        (fun i hi1 hi2 => h3 i (by omega) hi2) hc

/- ------------------------------------------------------------------ -/
/- Amazon Ads report processing                                        -/
/- (ecommerce_amzon_ads_ecs.py, process_report_config lines 248-257):  -/
/- create the report, fetch the URL list, then call fetch_report_data  -/
/- (materialize) once per returned URL; any exception from the poller  -/
/- propagates to the caller and skips the loop.                        -/
/- ------------------------------------------------------------------ -/

/-- The exceptions `fetch_report_url` can raise, as seen by its caller. -/
inductive FetchUrlErr
  | reportFailed
  | typeErr
  | noUrls
  | timeout
  deriving DecidableEq

/-- `AmazonAdvertisingReportProcessor.process_report_config`, reduced to
the control flow the claims are about: the first component is the result
seen by the caller, the second is the list of URLs on which
`fetch_report_data` (the materialize step) is invoked. -/
def adsProcessReportConfig (resp : Nat → AdsResponse) :
    Except FetchUrlErr Unit × List String :=
  match adsFetchReportUrl resp with
  | (.ok urls, _) => (.ok (), urls)
  | (.reportFailed, _) => (.error .reportFailed, [])
  | (.typeErr, _) => (.error .typeErr, [])
  | (.noUrls, _) => (.error .noUrls, [])
  | (.timeout, _) => (.error .timeout, [])

/- ------------------------------------------------------------------ -/
/- AMC report processing                                               -/
/- (chc_ecommerce_usa_amazon_amc_ecs.py, process_report_config lines   -/
/- 274-331): take the head of the fetched URL list; a non-empty URL is -/
/- downloaded and uploaded (materialize); the empty URL marks a        -/
/- recorded failure, which is appended to the workflow log (created    -/
/- empty by amc_main) and uploaded as the failure-log artifact.        -/
/- ------------------------------------------------------------------ -/

/-- Result of the AMC `process_report_config`: which URL the materialize
branch ran on (if any), and the failure-log rows uploaded (if any). -/
structure AmcProcessResult where
  materialized : Option String
  failureLog : Option (List WfStatus)
  deriving DecidableEq

/-- The branch of `process_report_config` that consumes the result of
`fetch_report_url` (`report_urls = self.fetch_report_url(report_id)[0]`,
then `if report_urls != ''`). `TimeoutError` from the poller propagates. -/
def amcProcessFromFetch (fetched : AmcOutcome × Nat)
    (startDate reportType : String) : Except Unit AmcProcessResult :=
  match fetched with
  | (.timeout, _) => .error ()
  | (.ok urls, _) =>
    let u := urls.headD ""
    if u ≠ "" then .ok ⟨some u, none⟩
    else .ok ⟨none, some []⟩
  | (.recordedFailure wf ret, _) =>
    let u := ret.headD ""
    if u ≠ "" then .ok ⟨some u, none⟩
    else .ok ⟨none,
      some [{ wf with date := some startDate, reportType := some reportType }]⟩

/-- `AmazonMarketingCloudAPI.process_report_config` for one report id. -/
def amcProcessReportConfig (resp : Nat → AmcResponse)
    (ru ii rid startDate reportType : String) : Except Unit AmcProcessResult :=
  amcProcessFromFetch (amcFetchReportUrl resp ru ii rid) startDate reportType

/- ------------------------------------------------------------------ -/
/- Claims C2, C3, C4.                                                  -/
/- ------------------------------------------------------------------ -/

/-- Counterexample for claim C2: the vendor status string `GARBAGE` is
outside every supported vocabulary, yet no error of any kind is raised for
it: it is classified as in-progress by all three connectors, and the
Amazon Ads poller fed a constant `GARBAGE` status keeps polling until the
retry budget (15 polls) expires in a timeout. -/
theorem c2_unmapped_status_counterexample :
    adsStatusState (some "GARBAGE") = .InProgress ∧
    amcStatusState (some "GARBAGE") = .InProgress ∧
    instaStatusState (some "GARBAGE") = .InProgress ∧
    adsFetchReportUrl (fun _ => ⟨some "GARBAGE", .arr []⟩) = (.timeout, 15) := by
  refine ⟨by decide, by decide, by decide, ?_⟩
  exact adsPollAux_timeout _ 15 0 (fun i _ _ => by decide)

/-- Claim C2 as amended: every vendor status string is assigned exactly
one abstract state — the terminal vocabularies (`COMPLETED`/`FAILURE` for
Amazon Ads, `SUCCEEDED`/`FAILURE`/`REJECTED` for AMC,
`completed`/`FAILURE` for Instacart) map to
`Succeeded`/`Failed`/`Rejected`, and every other string (unmapped ones
included) is treated as `InProgress`, so polling continues instead of a
`VendorError` being raised. -/
theorem c2_status_mapping_amended :
    (∀ s : Option String,
      (adsStatusState s = .Succeeded ↔ s = some "COMPLETED") ∧
      (adsStatusState s = .Failed ↔ s = some "FAILURE") ∧
      (s ≠ some "COMPLETED" → s ≠ some "FAILURE" →
        adsStatusState s = .InProgress)) ∧
    (∀ s : Option String,
      (amcStatusState s = .Succeeded ↔ s = some "SUCCEEDED") ∧
      (amcStatusState s = .Failed ↔ s = some "FAILURE") ∧
      (amcStatusState s = .Rejected ↔ s = some "REJECTED") ∧
      (s ≠ some "SUCCEEDED" → s ≠ some "FAILURE" → s ≠ some "REJECTED" →
        amcStatusState s = .InProgress)) ∧
    (∀ s : Option String,
      (instaStatusState s = .Succeeded ↔ s = some "completed") ∧
      (instaStatusState s = .Failed ↔ s = some "FAILURE") ∧
      (s ≠ some "completed" → s ≠ some "FAILURE" →
        instaStatusState s = .InProgress)) ∧
    (∀ (resp : Nat → AdsResponse) (m : Nat),
      (∀ i, i < m → adsStatusState (resp i).status = .InProgress) →
        adsPollAux resp m 0 = (.timeout, m)) := by
  refine ⟨?_, ?_, ?_, ?_⟩
  · intro s
    unfold adsStatusState
    split_ifs with h1 h2 <;> simp_all
  · intro s
    unfold amcStatusState
    split_ifs with h1 h2 h3 <;> simp_all
  · intro s
    unfold instaStatusState
    split_ifs with h1 h2 <;> simp_all
  · intro resp m h
    have hnt : ∀ i, i < m → adsNonTerminal (resp i) := by
      intro i hi
      have := h i hi
      unfold adsStatusState at this
      constructor
      · intro hc; rw [hc] at this; simp at this
      · intro hc; rw [hc] at this; simp at this
    have := adsPollAux_timeout resp m 0 (fun i _ h2 => hnt i (by omega))
    simpa using this

/-- Witness for the amended C2: the unmapped string `NOT_A_STATUS` is
classified `InProgress` by each connector, and an Amazon Ads poll run in
which every status classifies as `InProgress` ends in a timeout after
exactly its budget of 2 polls. -/
theorem c2_status_mapping_amended_witness :
    adsStatusState (some "NOT_A_STATUS") = .InProgress ∧
    amcStatusState (some "NOT_A_STATUS") = .InProgress ∧
    instaStatusState (some "NOT_A_STATUS") = .InProgress ∧
    adsPollAux (fun _ => ⟨some "NOT_A_STATUS", .absent⟩) 2 0 = (.timeout, 2) :=
  ⟨(c2_status_mapping_amended.1 (some "NOT_A_STATUS")).2.2 (by decide) (by decide),
   (c2_status_mapping_amended.2.1 (some "NOT_A_STATUS")).2.2.2
     (by decide) (by decide) (by decide),
   (c2_status_mapping_amended.2.2.1 (some "NOT_A_STATUS")).2.2 (by decide) (by decide),
   c2_status_mapping_amended.2.2.2 _ 2 (fun i _ => by decide)⟩

/-- Counterexample for claim C3: the AMC poller, given `IN_PROGRESS` twice
and then `SUCCEEDED` with signed url `U` in the response, does perform
3 polls but does not return `[U]`: it returns the `downloadUrls` endpoint
built from the job id, which still needs one further GET to resolve the
signed URL. -/
theorem c3_counterexample :
    amcFetchReportUrl
      (fun i => if i < 2 then ⟨some "IN_PROGRESS", none⟩
                else ⟨some "SUCCEEDED", some "https://signed.example/U"⟩)
      "https://api.example" "INST1" "RID1" =
      (.ok ["https://api.example/amc/reporting/INST1/workflowExecutions/RID1/downloadUrls"], 3) ∧
    (["https://api.example/amc/reporting/INST1/workflowExecutions/RID1/downloadUrls"] :
        List String) ≠ ["https://signed.example/U"] := by
  constructor
  · exact amcPollAux_succeeds _ _ _ _ 10 0 2 (by omega) (by omega)
      (fun i _ hi =>
        by interval_cases i <;> exact ⟨by decide, by decide, by decide⟩) rfl
  · decide

/-- Claim C3 as amended: with `IN_PROGRESS` on the first two polls and the
vendor success status on the third, each poller performs exactly 3 status
polls and returns a singleton list — the Amazon Ads poller (success status
`COMPLETED`) returns `[U]` with `U` taken from the response's `url` field,
while the AMC poller (success status `SUCCEEDED`) returns the
`downloadUrls` endpoint derived from the job id rather than a URL from the
response. -/
theorem c3_three_polls_amended (u ru ii rid : String)
    (aresp : Nat → AdsResponse) (mresp : Nat → AmcResponse)
    (ha0 : (aresp 0).status = some "IN_PROGRESS")
    (ha1 : (aresp 1).status = some "IN_PROGRESS")
    (ha2 : aresp 2 = ⟨some "COMPLETED", .str u⟩)
    (hm0 : (mresp 0).status = some "IN_PROGRESS")
    (hm1 : (mresp 1).status = some "IN_PROGRESS")
    (hm2 : (mresp 2).status = some "SUCCEEDED") :
    adsFetchReportUrl aresp = (.ok [u], 3) ∧
    amcFetchReportUrl mresp ru ii rid =
      (.ok [amcDownloadUrlsEndpoint ru ii rid], 3) := by
  constructor
  · have h := adsPollAux_succeeds aresp 15 0 2 (by omega) (by omega)
      (fun i _ hi => by
        interval_cases i
        · exact ⟨by rw [ha0]; decide, by rw [ha0]; decide⟩
        · exact ⟨by rw [ha1]; decide, by rw [ha1]; decide⟩)
      (by rw [ha2])
    rw [adsFetchReportUrl, h, ha2]
    rfl
  · exact amcPollAux_succeeds mresp ru ii rid 10 0 2 (by omega) (by omega)
      (fun i _ hi => by
        interval_cases i
        · exact ⟨by rw [hm0]; decide, by rw [hm0]; decide, by rw [hm0]; decide⟩
        · exact ⟨by rw [hm1]; decide, by rw [hm1]; decide, by rw [hm1]; decide⟩)
      hm2

/-- Witness for the amended C3: a concrete response sequence that is
`IN_PROGRESS` twice and then succeeds yields exactly 3 polls, `[U]` for
Amazon Ads and the derived `downloadUrls` endpoint for AMC. -/
theorem c3_three_polls_amended_witness :
    adsFetchReportUrl
      (fun i => if i = 2 then ⟨some "COMPLETED", .str "https://files.example/W"⟩
                else ⟨some "IN_PROGRESS", .arr []⟩) =
      (.ok ["https://files.example/W"], 3) ∧
    amcFetchReportUrl
      (fun i => if i = 2 then ⟨some "SUCCEEDED", none⟩
                else ⟨some "IN_PROGRESS", none⟩)
      "https://amc.example" "I9" "R9" =
      (.ok [amcDownloadUrlsEndpoint "https://amc.example" "I9" "R9"], 3) :=
  c3_three_polls_amended "https://files.example/W" "https://amc.example" "I9" "R9"
    _ _ (by decide) (by decide) (by decide) (by decide) (by decide) (by decide)

/-- Claim C4: with status responses `IN_PROGRESS` then the failure status,
the Amazon Ads connector (raise policy) surfaces the failure as an
exception to the caller and never invokes `fetch_report_data`
(materialize), while the AMC connector (record policy) raises no exception
at that point and uploads a failure-log artifact containing the recorded
workflow row. -/
theorem c4_on_failure_policies (aresp : Nat → AdsResponse)
    (mresp : Nat → AmcResponse) (ru ii rid sd rt : String)
    (ha0 : (aresp 0).status = some "IN_PROGRESS")
    (ha1 : (aresp 1).status = some "FAILURE")
    (hm0 : (mresp 0).status = some "IN_PROGRESS")
    (hm1 : (mresp 1).status = some "FAILURE") :
    adsProcessReportConfig aresp = (.error .reportFailed, []) ∧
    amcProcessReportConfig mresp ru ii rid sd rt =
      .ok ⟨none, some [⟨rid, some sd, some rt, "FAILURE"⟩]⟩ := by
  constructor
  · have h := adsPollAux_fails aresp 15 0 1 (by omega) (by omega)
      (fun i _ hi => by
        interval_cases i
        exact ⟨by rw [ha0]; decide, by rw [ha0]; decide⟩)
      ha1
    rw [adsProcessReportConfig, adsFetchReportUrl, h]
  · have h := amcPollAux_recorded mresp ru ii rid 10 0 1 (by omega) (by omega)
      (fun i _ hi => by
        interval_cases i
        exact ⟨by rw [hm0]; decide, by rw [hm0]; decide, by rw [hm0]; decide⟩)
      (Or.inl hm1)
    rw [amcProcessReportConfig, amcFetchReportUrl, h, hm1]
    rfl

/-- Witness for C4: concrete `IN_PROGRESS, FAILURE` sequences — the Amazon
Ads run returns the report-failed exception with no materialize calls, and
the AMC run completes normally with a one-row failure log. -/
theorem c4_on_failure_policies_witness :
    adsProcessReportConfig
      (fun i => if i = 0 then ⟨some "IN_PROGRESS", .arr []⟩
                else ⟨some "FAILURE", .arr []⟩) = (.error .reportFailed, []) ∧
    amcProcessReportConfig
      (fun i => if i = 0 then ⟨some "IN_PROGRESS", none⟩
                else ⟨some "FAILURE", none⟩)
      "https://amc.example" "I4" "R4" "2024-01-01" "rkind" =
      .ok ⟨none, some [⟨"R4", some "2024-01-01", some "rkind", "FAILURE"⟩]⟩ :=
  c4_on_failure_policies _ _ "https://amc.example" "I4" "R4" "2024-01-01" "rkind"
    (by decide) (by decide) (by decide) (by decide)

/- ------------------------------------------------------------------ -/
/- AVC rate-limited API calls                                          -/
/- (src/connectors/src/utils/aws_connection.py,                        -/
/- AWSConnection.api_call_with_delay lines 165-193): an unbounded      -/
/- `while True` loop that re-issues the request after a 10 second      -/
/- sleep whenever the response carries the error code `QuotaExceeded`, -/
/- raises on any other error response, and returns otherwise.  The     -/
/- report-creation POST of AVCIngestionTask.get_report_from_avc        -/
/- (avc_reports_api.py lines 93-103) goes through this wrapper.        -/
/- ------------------------------------------------------------------ -/

/-- One vendor response as inspected by `api_call_with_delay`: either a
response whose `errors[0]['code']` is the given code, or an error-free
response with a payload. -/
inductive ApiResponse
  | errs (firstCode : String)
  | ok (payload : String)
  deriving DecidableEq

/-- What `api_call_with_delay` does with a single response: a response
with errors is raised as an exception, an error-free one is returned. -/
def apiOutcome : ApiResponse → Except String String
  | .errs c => .error c
  | .ok p => .ok p

/-- `AWSConnection.api_call_with_delay`.  `resp i` is the response to the
`i`-th issued request.  The source loop is `while True`, hence
unbounded; the fuel argument makes it total in the embedding, with `none`
meaning the loop is still spinning after `fuel` requests.  The `Nat` in
the result is the number of requests issued. -/
def apiCallWithDelayFuel (resp : Nat → ApiResponse) :
    Nat → Nat → Option (Except String String × Nat)
  | _, 0 => none
  | i, fuel + 1 =>
    match resp i with
    | .errs c =>
      if c = "QuotaExceeded" then apiCallWithDelayFuel resp (i + 1) fuel
      else some (.error c, i + 1)
    | .ok p => some (.ok p, i + 1)

/-- The report-creation POST of `get_report_from_avc`: one invocation of
`api_call_with_delay` starting from the first request. -/
def avcSubmitReport (resp : Nat → ApiResponse) (fuel : Nat) :
    Option (Except String String × Nat) :=
  apiCallWithDelayFuel resp 0 fuel

theorem apiCallWithDelayFuel_exit (resp : Nat → ApiResponse) :
    ∀ fuel i n, i ≤ n → n - i < fuel →
      (∀ j, i ≤ j → j < n → resp j = .errs "QuotaExceeded") →
      resp n ≠ .errs "QuotaExceeded" →
      apiCallWithDelayFuel resp i fuel = some (apiOutcome (resp n), n + 1) := by
  intro fuel
  induction fuel with
  | zero => intro i n _ h2 _ _; omega
  | succ f ih =>
    intro i n h1 h2 h3 hn
    by_cases hi : i = n
    · subst hi
      cases hr : resp i with
      | errs c =>
        have hcq : c ≠ "QuotaExceeded" := fun hc => hn (by rw [hr, hc])
        simp [apiCallWithDelayFuel, hr, hcq, apiOutcome]
      | ok p => simp [apiCallWithDelayFuel, hr, apiOutcome]
    · have hlt : i < n := by omega
      have hq := h3 i (Nat.le_refl _) hlt
      simp only [apiCallWithDelayFuel]
      rw [hq]
      simp only [if_pos rfl]
      exact ih (i + 1) n (by omega) (by omega)
        (fun j hj1 hj2 => h3 j (by omega) hj2) hn

theorem apiCallWithDelayFuel_spins (resp : Nat → ApiResponse) :
    ∀ fuel i, (∀ j, i ≤ j → j < i + fuel → resp j = .errs "QuotaExceeded") →
      apiCallWithDelayFuel resp i fuel = none := by
  intro fuel
  induction fuel with
  | zero => intro i _; rfl
  | succ f ih =>
    intro i h
    have hq := h i (Nat.le_refl _) (by omega)
    simp only [apiCallWithDelayFuel]
    rw [hq]
    simp only [if_pos rfl]
    exact ih (i + 1) (fun j hj1 hj2 => h j (by omega) (by omega))

/-- Counterexample for claim C7: a single invocation of the creation call
against a vendor that first answers `QuotaExceeded` and then succeeds
issues the creation POST twice, not exactly once — the wrapper
automatically retries the submission on quota errors. -/
theorem c7_counterexample :
    avcSubmitReport
      (fun i => if i = 0 then .errs "QuotaExceeded" else .ok "REPORTID") 5 =
      some (.ok "REPORTID", 2) ∧ (2 : Nat) ≠ 1 := by
  constructor
  · rfl
  · decide

/-- Claim C7 as amended: within one invocation, the creation call is
issued exactly once when the first response is not a `QuotaExceeded`
error; on `QuotaExceeded` responses the wrapper re-issues the call after a
fixed delay until some other response arrives (`n` quota responses cost
`n + 1` submissions), and it spins forever — exceeding any bound — while
every response is `QuotaExceeded`.  A non-quota error response raises
without any retry. -/
theorem c7_submit_retry_amended :
    (∀ (resp : Nat → ApiResponse) (fuel : Nat), 0 < fuel →
      resp 0 ≠ .errs "QuotaExceeded" →
      avcSubmitReport resp fuel = some (apiOutcome (resp 0), 1)) ∧
    (∀ (resp : Nat → ApiResponse) (n fuel : Nat),
      (∀ j, j < n → resp j = .errs "QuotaExceeded") →
      resp n ≠ .errs "QuotaExceeded" → n < fuel →
      avcSubmitReport resp fuel = some (apiOutcome (resp n), n + 1)) ∧
    (∀ (resp : Nat → ApiResponse) (fuel : Nat),
      (∀ j, j < fuel → resp j = .errs "QuotaExceeded") →
      avcSubmitReport resp fuel = none) := by
  refine ⟨?_, ?_, ?_⟩
  · intro resp fuel h0 hn
    exact apiCallWithDelayFuel_exit resp fuel 0 0 (Nat.le_refl _) (by omega)
      (fun j hj1 hj2 => by omega) hn
  · intro resp n fuel hq hn hf
    exact apiCallWithDelayFuel_exit resp fuel 0 n (by omega) (by omega)
      (fun j _ hj2 => hq j hj2) hn
  · intro resp fuel hq
    exact apiCallWithDelayFuel_spins resp fuel 0 (fun j _ hj2 => hq j (by omega))

/-- Witness for the amended C7: an immediately successful creation call is
submitted exactly once; two quota responses cost three submissions; a
vendor that always answers `QuotaExceeded` keeps the wrapper spinning past
a budget of 7. -/
theorem c7_submit_retry_amended_witness :
    avcSubmitReport (fun _ => .ok "R100") 5 = some (.ok "R100", 1) ∧
    avcSubmitReport
      (fun i => if i < 2 then .errs "QuotaExceeded" else .ok "R200") 9 =
      some (.ok "R200", 3) ∧
    avcSubmitReport (fun _ => .errs "QuotaExceeded") 7 = none :=
  ⟨c7_submit_retry_amended.1 _ 5 (by decide) (by decide),
   c7_submit_retry_amended.2.1 _ 2 9
     (fun j hj => by interval_cases j <;> rfl) (by decide) (by decide),
   c7_submit_retry_amended.2.2 _ 7 (fun j _ => rfl)⟩

/- ------------------------------------------------------------------ -/
/- The fetch/transform/upload pipeline                                 -/
/- (src/ecomm_source_connector/src/utils/report_processor.py,          -/
/- fetch_report_data lines 147-207 and cleanup_files lines 135-145).   -/
/- ------------------------------------------------------------------ -/

/-- The URL-suffix dispatch of `fetch_report_data` (lines 163-173): the
lowered URL path is tested against `.orc`, `.gz`, `.csv` in that order;
any other suffix raises `ValueError("Could not determine file extension
from URL")`. -/
def fileExtensionFor (pathLower : String) : Option String :=
  if strEnds ".orc" pathLower then some ".orc"
  else if strEnds ".gz" pathLower then some ".gz"
  else if strEnds ".csv" pathLower then some ".csv"
  else none

/-- Success/failure oracles for the external effects of
`fetch_report_data`: the HTTP download (`raise_for_status`), gzip
decompression, JSON parsing, ORC decoding and the S3 upload. -/
structure FetchEnv where
  httpOk : Bool
  gunzipOk : Bool
  jsonOk : Bool
  orcOk : Bool
  uploadOk : Bool
  deriving DecidableEq

/-- The exceptions `fetch_report_data` can raise. -/
inductive FetchDataErr
  | extUnknown
  | http
  | gunzip
  | json
  | orc
  | upload
  deriving DecidableEq

/-- `cleanup_files(file_paths)` (report_processor.py lines 135-145):
remove each listed path that exists; returns the list of paths actually
removed, in order.  The first argument is the set of files existing on
disk. -/
def cleanupFiles : List String → List String → List String
  | _, [] => []
  | existing, t :: ts =>
    if existing.contains t then t :: cleanupFiles (existing.erase t) ts
    else cleanupFiles existing ts

/-- `fetch_report_data(report_url, ...)` (report_processor.py lines
147-207).  The argument is the URL's path component
(`urlparse(report_url).path`).  The result is the outcome together with
the list of temporary files the call created and the list it removed.
The temp-file name drawn by `tempfile.NamedTemporaryFile` is abstracted to
the fixed stem `/tmp/report` plus the chosen suffix; `decompress_file`
strips `.gz` with `replace`, `convert_json_to_csv` writes
`/tmp/report.csv`, `convert_orc_to_csv` rewrites `.orc` to `.csv`, and
`cleanup_files` runs only at the end of the `try` block, after a
successful upload. -/
def fetchReportData (env : FetchEnv) (urlPath : String) :
    Except FetchDataErr Unit × List String × List String :=
  match fileExtensionFor (strLower urlPath) with
  | none => (.error .extUnknown, [], [])
  | some ext =>
    if env.httpOk then
      let localFile := "/tmp/report" ++ ext
      if ext = ".gz" then
        let decompressed := strReplace localFile ".gz" ""
        if env.gunzipOk then
          if env.jsonOk then
            let csv := "/tmp/report.csv"
            if env.uploadOk then
              (.ok (), [localFile, decompressed, csv],
                cleanupFiles [localFile, decompressed, csv]
                  [localFile, decompressed, csv])
            else (.error .upload, [localFile, decompressed, csv], [])
          else (.error .json, [localFile, decompressed], [])
        else (.error .gunzip, [localFile, decompressed], [])
      else if ext = ".orc" then
        if env.orcOk then
          let csv := strReplace localFile ".orc" ".csv"
          if env.uploadOk then
            (.ok (), [localFile, csv], cleanupFiles [localFile, csv] [localFile, csv])
          else (.error .upload, [localFile, csv], [])
        else (.error .orc, [localFile], [])
      else
        let csv := localFile
        if env.uploadOk then
          (.ok (), [localFile], cleanupFiles [localFile] [localFile, csv])
        else (.error .upload, [localFile], [])
    else (.error .http, [], [])

/-- Counterexample for claim C8: a download URL whose path ends in `.txt`
(none of `.gz`, `.orc`, `.csv`) is not passed through as CSV — the
pipeline raises `ValueError` before even downloading, creating and
uploading nothing, even when every external effect would succeed. -/
theorem c8_counterexample :
    fetchReportData ⟨true, true, true, true, true⟩ "/reports/report.txt" =
      (.error .extUnknown, [], []) := rfl

/-- Claim C8 as amended: for every URL path whose lowered form ends in
none of `.gz`, `.orc`, `.csv`, `fetch_report_data` raises the
could-not-determine-extension `ValueError` without downloading or
creating any artifact; there is no content-inspection fallback and no
CSV pass-through. -/
theorem c8_unknown_extension_amended (env : FetchEnv) (urlPath : String)
    (hgz : strEnds ".gz" (strLower urlPath) = false)
    (horc : strEnds ".orc" (strLower urlPath) = false)
    (hcsv : strEnds ".csv" (strLower urlPath) = false) :
    fetchReportData env urlPath = (.error .extUnknown, [], []) := by
  unfold fetchReportData
  have hext : fileExtensionFor (strLower urlPath) = none := by
    unfold fileExtensionFor
    rw [horc, hgz, hcsv]
    rfl
  rw [hext]

/-- Witness for the amended C8: the concrete path `/x/data.json` ends in
none of the three suffixes and makes the pipeline fail with the
unknown-extension error while creating no files. -/
theorem c8_unknown_extension_amended_witness :
    fetchReportData ⟨true, true, true, true, true⟩ "/x/data.json" =
      (.error .extUnknown, [], []) :=
  c8_unknown_extension_amended _ "/x/data.json" (by decide) (by decide) (by decide)

/-- Removing the duplicate-listed single temporary file of the `.csv`
branch removes it exactly once. -/
theorem cleanupFiles_self_pair (x : String) : cleanupFiles [x] [x, x] = [x] := by
  have h1 : [x].contains x = true := by simp
  have h2 : ([] : List String).contains x = false := by simp
  unfold cleanupFiles
  rw [if_pos h1, List.erase_cons_head]
  unfold cleanupFiles
  rw [if_neg (by simp)]
  rfl

/-- Counterexample for claim C9: a gzip report whose decompressed content
fails JSON parsing leaves both temporary files (the download and the
decompressed copy) behind — the error path of `fetch_report_data` removes
nothing, because `cleanup_files` is only reached after a successful
upload. -/
theorem c9_counterexample :
    fetchReportData ⟨true, true, false, true, true⟩ "/reports/data.gz" =
      (.error .json, ["/tmp/report.gz", "/tmp/report"], []) := rfl

/-- Claim C9 as amended: on the success path `fetch_report_data` removes
exactly the temporary artifacts it created (downloaded file, decompressed
file, generated CSV), but on every failure path it removes nothing and the
artifacts created up to the failing step are left behind. -/
theorem c9_cleanup_amended (env : FetchEnv) (urlPath : String) :
    ((fetchReportData env urlPath).1 = .ok () →
      (fetchReportData env urlPath).2.2 = (fetchReportData env urlPath).2.1) ∧
    (∀ e, (fetchReportData env urlPath).1 = .error e →
      (fetchReportData env urlPath).2.2 = []) := by
  unfold fetchReportData
  split
  · exact ⟨fun h => by simp at h, fun e _ => rfl⟩
  · split
    · split
      · rename_i hgz
        subst hgz
        split
        · split
          · split
            · exact ⟨fun _ => by decide, fun e h => by simp at h⟩
            · exact ⟨fun h => by simp at h, fun e _ => rfl⟩
          · exact ⟨fun h => by simp at h, fun e _ => rfl⟩
        · exact ⟨fun h => by simp at h, fun e _ => rfl⟩
      · split
        · rename_i horc
          subst horc
          split
          · split
            · exact ⟨fun _ => by decide, fun e h => by simp at h⟩
            · exact ⟨fun h => by simp at h, fun e _ => rfl⟩
          · exact ⟨fun h => by simp at h, fun e _ => rfl⟩
        · split
          · exact ⟨fun _ => cleanupFiles_self_pair _, fun e h => by simp at h⟩
          · exact ⟨fun h => by simp at h, fun e _ => rfl⟩
    · exact ⟨fun h => by simp at h, fun e _ => rfl⟩

/-- Witness for the amended C9: a successful gzip run removes exactly the
three files it created, and a failed upload of an ORC report removes
nothing. -/
theorem c9_cleanup_amended_witness :
    (fetchReportData ⟨true, true, true, true, true⟩ "/r/day.gz").2.2 =
      (fetchReportData ⟨true, true, true, true, true⟩ "/r/day.gz").2.1 ∧
    (fetchReportData ⟨true, true, true, true, false⟩ "/r/day.orc").2.2 = [] :=
  ⟨(c9_cleanup_amended ⟨true, true, true, true, true⟩ "/r/day.gz").1 (by decide),
   (c9_cleanup_amended ⟨true, true, true, true, false⟩ "/r/day.orc").2
     .upload (by decide)⟩

/- ------------------------------------------------------------------ -/
/- Daily date-range generation                                         -/
/- (src/ecomm_source_connector/src/utils/common_utils.py,              -/
/- make_api_calls_daily lines 137-154, and amc_main.py lines 107-118). -/
/- ------------------------------------------------------------------ -/

/-- The body of `make_api_calls_daily`'s `while start_date < end_date`
loop: dates are modelled by their day ordinal, so one loop iteration
appends the pair `(start, start + 1 day)` and advances by one day; the
loop runs exactly `end - start` times. -/
def makeApiCallsDailyAux (s : Nat) : Nat → List (Nat × Nat)
  | 0 => []
  | n + 1 => (s, s + 1) :: makeApiCallsDailyAux (s + 1) n

/-- `make_api_calls_daily(report_start_date, report_end_date)` over day
ordinals. -/
def makeApiCallsDaily (s e : Nat) : List (Nat × Nat) :=
  makeApiCallsDailyAux s (e - s)

/-- The number of `process_report_config` invocations (report-job
submissions) that `amc_main.main` performs: one per date range of
`make_api_calls_daily` (amc_main.py lines 107-118). -/
def amcMainSubmissionCount (s e : Nat) : Nat :=
  (makeApiCallsDaily s e).length

/-- Claim C10: with `start_date` equal to `end_date`,
`make_api_calls_daily` returns the empty list, so the connector run
iterates over zero date ranges and submits no report job. -/
theorem c10_equal_dates_no_ranges (d : Nat) :
    makeApiCallsDaily d d = [] ∧ amcMainSubmissionCount d d = 0 := by
  constructor
  · simp [makeApiCallsDaily, makeApiCallsDailyAux]
  · simp [amcMainSubmissionCount, makeApiCallsDaily, makeApiCallsDailyAux]

/- ------------------------------------------------------------------ -/
/- Historical-file rotation                                            -/
/- (src/connectors/src/utils/aws_connection.py,                        -/
/- AWSConnection.move_previous_csv_to_processed_folder lines 284-320). -/
/- The S3 bucket is an association list of key/blob pairs in listing   -/
/- order; `get_object`, `put_object` and `delete_object` are modelled  -/
/- on it, with pandas `read_csv`/`to_parquet` and the put call's       -/
/- success provided as oracles.                                        -/
/- ------------------------------------------------------------------ -/

/-- The S3 bucket contents: keys with their object bytes, in the order
`resource.objects.all()` lists them. -/
def S3State := List (String × String)

/-- `get_object`: the blob stored at a key, if any. -/
def s3lookup : S3State → String → Option String
  | [], _ => none
  | (k1, v) :: t, k => if k1 = k then some v else s3lookup t k

/-- Removal of every entry at a key (`delete_object`). -/
def eraseKey : S3State → String → S3State
  | [], _ => []
  | (k1, v) :: t, k => if k1 = k then eraseKey t k else (k1, v) :: eraseKey t k

/-- `put_object`: stores the blob at the key, overwriting any previous
object there. -/
def s3put (st : S3State) (k v : String) : S3State := (k, v) :: eraseKey st k

/-- The keys of the bucket in listing order. -/
def keysOf (st : S3State) : List String := st.map Prod.fst

/-- The date component the selection uses:
`file.key.split('.')[0].split('_')[-1]` (the text after the last
underscore of the part before the first dot). -/
def dateComponent (k : String) : String :=
  ⟨(splitOnCharL '_' ((splitOnCharL '.' k.data).headD [])).getLastD []⟩

/-- The base name used for the parquet copy:
`'.'.join(file.key.split('/')[-1].split('.')[:-1])`. -/
def csvBaseName (k : String) : String :=
  ⟨joinDots ((splitOnCharL '.' ((splitOnCharL '/' k.data).getLastD [])).dropLast)⟩

/-- The destination key of a rotated file:
`{prefix}processed/{csv_name}.parquet`, where `prefix` stands for
`{root_folder}/{source_name}/{country_code}/{table_name}/`. -/
def processedKey (pfx k : String) : String :=
  pfx ++ "processed/" ++ csvBaseName k ++ ".parquet"

/-- The selection predicate of the `file_list` comprehension
(aws_connection.py lines 294-298), in source order: the key does not
start with `{prefix}processed`, starts with the table prefix, its date
component is not in `date_list`, and it ends with `.csv`. -/
def rotSel (pfx : String) (dateList : List String) (k : String) : Bool :=
  !(strStarts (pfx ++ "processed") k) && strStarts pfx k &&
    !(dateList.contains (dateComponent k)) && strEnds ".csv" k

/-- The S3 effects the rotation performs, in execution order. -/
inductive S3Event
  | getE (k : String)
  | putE (k : String) (blob : String)
  | delE (k : String)
  deriving DecidableEq

/-- Oracles for the external effects of the rotation loop: pandas
`read_csv` (which can raise on a malformed blob, yielding the dataframe
otherwise), `df.to_parquet`, and whether an S3 `put_object` call to a
given key succeeds. -/
structure RotEnv where
  readCsv : String → Option String
  toParquet : String → String
  putOk : String → Bool

/-- The body of `for file_to_move in file_list:` (aws_connection.py lines
303-320): get the object, parse it with `read_csv`, write the parquet
copy under `processed/`, then delete the source object.  Any failing
step raises, which stops the loop; events record only the effects that
actually happened.  Returns the event trace, the final bucket state and
whether the loop completed. -/
def moveLoop (env : RotEnv) (pfx : String) :
    S3State → List String → List S3Event × S3State × Bool
  | st, [] => ([], st, true)
  | st, f :: rest =>
    match s3lookup st f with
    | none => ([], st, false)
    | some b =>
      match env.readCsv b with
      | none => ([.getE f], st, false)
      | some df =>
        let pk := processedKey pfx f
        if env.putOk pk then
          let st2 := eraseKey (s3put st pk (env.toParquet df)) f
          let r := moveLoop env pfx st2 rest
          (.getE f :: .putE pk (env.toParquet df) :: .delE f :: r.1, r.2)
        else ([.getE f], st, false)

/-- `AWSConnection.move_previous_csv_to_processed_folder(date_list, ...)`:
build `file_list` from the bucket listing with the selection predicate,
then run the conversion loop over it (the `if len(file_list) != 0` guard
is kept from the source). -/
def moveCsvToProcessed (env : RotEnv) (pfx : String) (dateList : List String)
    (st : S3State) : List S3Event × S3State × Bool :=
  let fileList := (keysOf st).filter (rotSel pfx dateList)
  if fileList.length ≠ 0 then moveLoop env pfx st fileList
  else ([], st, true)

/- ------------------------------------------------------------------ -/
/- Store lemmas.                                                       -/
/- ------------------------------------------------------------------ -/

theorem s3lookup_eraseKey (k k' : String) :
    ∀ st : S3State, s3lookup (eraseKey st k) k' =
      if k' = k then none else s3lookup st k' := by
  intro st
  induction st with
  | nil => by_cases h : k' = k <;> simp [eraseKey, s3lookup, h]
  | cons p t ih =>
    obtain ⟨k1, v⟩ := p
    simp only [eraseKey]
    by_cases h1 : k1 = k
    · subst h1
      have he : (if k1 = k1 then eraseKey t k1 else (k1, v) :: eraseKey t k1) =
          eraseKey t k1 := by simp
      rw [he, ih]
      by_cases h2 : k' = k1
      · simp [h2]
      · have h3 : ¬ k1 = k' := fun hc => h2 hc.symm
        simp [s3lookup, h2, h3]
    · simp only [if_neg h1]
      by_cases h2 : k1 = k'
      · have h3 : ¬ k' = k := fun hc => h1 (h2.trans hc)
        simp [s3lookup, h2, h3]
      · simp [s3lookup, h2, ih]

theorem s3lookup_put (st : S3State) (k v k' : String) :
    s3lookup (s3put st k v) k' = if k = k' then some v else s3lookup st k' := by
  unfold s3put
  simp only [s3lookup]
  by_cases h : k = k'
  · simp [h]
  · rw [if_neg h, s3lookup_eraseKey, if_neg (fun hc => h hc.symm), if_neg h]

theorem s3lookup_ne_none_iff_mem (k : String) :
    ∀ st : S3State, s3lookup st k ≠ none ↔ k ∈ keysOf st := by
  intro st
  induction st with
  | nil => simp [s3lookup, keysOf]
  | cons p t ih =>
    obtain ⟨k1, v⟩ := p
    simp only [s3lookup, keysOf, List.map_cons, List.mem_cons]
    by_cases h : k1 = k
    · simp [h]
    · have h2 : ¬ k = k1 := fun hc => h hc.symm
      simp only [if_neg h]
      simp only [keysOf] at ih
      rw [ih]
      simp [h2]

/- ------------------------------------------------------------------ -/
/- Prefix facts about the processed destination.                       -/
/- ------------------------------------------------------------------ -/

theorem isPrefixOf_append_same (a : List Char) :
    ∀ b c, (a ++ b).isPrefixOf (a ++ c) = b.isPrefixOf c := by
  induction a with
  | nil => intro b c; rfl
  | cons x a ih => intro b c; simp [List.isPrefixOf, ih]

theorem isPrefixOf_append_right (a c : List Char) :
    a.isPrefixOf (a ++ c) = true := by
  have h := isPrefixOf_append_same a [] c
  rw [List.append_nil] at h
  rw [h]
  cases c <;> rfl

/-- Every rotation destination key starts with `{prefix}processed`, so it
can never itself be selected by `rotSel`. -/
theorem strStarts_processedKey (pfx k : String) :
    strStarts (pfx ++ "processed") (processedKey pfx k) = true := by
  unfold strStarts processedKey
  rw [strData_append, strData_append, strData_append, strData_append]
  have hsplit : ("processed/").data = ("processed").data ++ ['/'] := rfl
  rw [hsplit]
  rw [List.append_assoc pfx.data, List.append_assoc pfx.data,
    isPrefixOf_append_same]
  exact isPrefixOf_append_right _ _

/-- A selected key is never a processed destination key. -/
theorem rotSel_ne_processedKey (pfx : String) (dateList : List String)
    (g k : String) (h : rotSel pfx dateList g = true) :
    g ≠ processedKey pfx k := by
  intro hgk
  have h1 : strStarts (pfx ++ "processed") g = false := by
    unfold rotSel at h
    simp only [Bool.and_eq_true, Bool.not_eq_true'] at h
    exact h.1.1.1
  rw [hgk, strStarts_processedKey] at h1
  simp at h1

/- ------------------------------------------------------------------ -/
/- One-step unfolding lemmas for the rotation loop.                    -/
/- ------------------------------------------------------------------ -/

theorem moveLoop_cons_none (env : RotEnv) (pfx : String) (st : S3State)
    (f : String) (rest : List String) (hb : s3lookup st f = none) :
    moveLoop env pfx st (f :: rest) = ([], st, false) := by
  simp only [moveLoop, hb]

theorem moveLoop_cons_badcsv (env : RotEnv) (pfx : String) (st : S3State)
    (f : String) (rest : List String) (b : String)
    (hb : s3lookup st f = some b) (hr : env.readCsv b = none) :
    moveLoop env pfx st (f :: rest) = ([.getE f], st, false) := by
  simp only [moveLoop, hb, hr]

theorem moveLoop_cons_badput (env : RotEnv) (pfx : String) (st : S3State)
    (f : String) (rest : List String) (b df : String)
    (hb : s3lookup st f = some b) (hr : env.readCsv b = some df)
    (hput : env.putOk (processedKey pfx f) = false) :
    moveLoop env pfx st (f :: rest) = ([.getE f], st, false) := by
  simp only [moveLoop, hb, hr, hput]
  rfl

theorem moveLoop_cons_ok (env : RotEnv) (pfx : String) (st : S3State)
    (f : String) (rest : List String) (b df : String)
    (hb : s3lookup st f = some b) (hr : env.readCsv b = some df)
    (hput : env.putOk (processedKey pfx f) = true) :
    moveLoop env pfx st (f :: rest) =
      (S3Event.getE f ::
        S3Event.putE (processedKey pfx f) (env.toParquet df) ::
        S3Event.delE f ::
        (moveLoop env pfx
          (eraseKey (s3put st (processedKey pfx f) (env.toParquet df)) f) rest).1,
       (moveLoop env pfx
          (eraseKey (s3put st (processedKey pfx f) (env.toParquet df)) f) rest).2) := by
  simp only [moveLoop, hb, hr, hput]
  rfl

/- ------------------------------------------------------------------ -/
/- Behavioural lemmas for the rotation loop.                           -/
/- ------------------------------------------------------------------ -/

/-- Keys that are neither in the file list nor a processed destination of
a listed file keep their stored value across the loop (this holds for any
oracle outcome: a failing step stops the loop without touching them). -/
theorem moveLoop_lookup_untouched (env : RotEnv) (pfx : String) :
    ∀ (L : List String) (st : S3State) (k : String),
      k ∉ L → (∀ f ∈ L, processedKey pfx f ≠ k) →
      s3lookup (moveLoop env pfx st L).2.1 k = s3lookup st k := by
  intro L
  induction L with
  | nil => intro st k _ _; rfl
  | cons f rest ih =>
    intro st k hk hpk
    have hkf : k ≠ f := fun hc => hk (by rw [hc]; exact List.mem_cons_self f rest)
    cases hb : s3lookup st f with
    | none => rw [moveLoop_cons_none env pfx st f rest hb]
    | some b =>
      cases hr : env.readCsv b with
      | none => rw [moveLoop_cons_badcsv env pfx st f rest b hb hr]
      | some df =>
        cases hput : env.putOk (processedKey pfx f) with
        | false => rw [moveLoop_cons_badput env pfx st f rest b df hb hr hput]
        | true =>
          rw [moveLoop_cons_ok env pfx st f rest b df hb hr hput]
          show s3lookup (moveLoop env pfx
            (eraseKey (s3put st (processedKey pfx f) (env.toParquet df)) f)
            rest).2.1 k = s3lookup st k
          rw [ih _ k (fun hc => hk (List.mem_cons_of_mem f hc))
            (fun g hg => hpk g (List.mem_cons_of_mem f hg))]
          rw [s3lookup_eraseKey, if_neg hkf, s3lookup_put,
            if_neg (hpk f (List.mem_cons_self f rest))]

/-- A key outside the file list that is present in the bucket is still
present after the loop (it may have been overwritten by a parquet copy,
but never deleted). -/
theorem moveLoop_presence (env : RotEnv) (pfx : String) :
    ∀ (L : List String) (st : S3State) (k : String),
      k ∉ L → s3lookup st k ≠ none →
      s3lookup (moveLoop env pfx st L).2.1 k ≠ none := by
  intro L
  induction L with
  | nil => intro st k _ hs; exact hs
  | cons f rest ih =>
    intro st k hk hs
    have hkf : k ≠ f := fun hc => hk (by rw [hc]; exact List.mem_cons_self f rest)
    cases hb : s3lookup st f with
    | none => rw [moveLoop_cons_none env pfx st f rest hb]; exact hs
    | some b =>
      cases hr : env.readCsv b with
      | none => rw [moveLoop_cons_badcsv env pfx st f rest b hb hr]; exact hs
      | some df =>
        cases hput : env.putOk (processedKey pfx f) with
        | false =>
          rw [moveLoop_cons_badput env pfx st f rest b df hb hr hput]; exact hs
        | true =>
          rw [moveLoop_cons_ok env pfx st f rest b df hb hr hput]
          show s3lookup (moveLoop env pfx
            (eraseKey (s3put st (processedKey pfx f) (env.toParquet df)) f)
            rest).2.1 k ≠ none
          refine ih _ k (fun hc => hk (List.mem_cons_of_mem f hc)) ?_
          rw [s3lookup_eraseKey, if_neg hkf, s3lookup_put]
          by_cases hpkk : processedKey pfx f = k
          · rw [if_pos hpkk]; simp
          · rw [if_neg hpkk]; exact hs

/-- Under all-success oracles, every listed key is deleted by the loop
and never re-created (no processed destination can coincide with it). -/
theorem moveLoop_deleted (env : RotEnv) (pfx : String) :
    ∀ (L : List String) (st : S3State) (k : String),
      L.Nodup →
      (∀ b, (env.readCsv b).isSome = true) →
      (∀ q, env.putOk q = true) →
      (∀ f ∈ L, s3lookup st f ≠ none) →
      (∀ f, processedKey pfx f ≠ k) →
      k ∈ L →
      s3lookup (moveLoop env pfx st L).2.1 k = none := by
  intro L
  induction L with
  | nil => intro st k _ _ _ _ _ hk; simp at hk
  | cons f rest ih =>
    intro st k hnd hr hp hpres hnopk hk
    have hbf : s3lookup st f ≠ none := hpres f (List.mem_cons_self f rest)
    obtain ⟨b, hb⟩ : ∃ b, s3lookup st f = some b := by
      cases hlb : s3lookup st f with
      | none => exact absurd hlb hbf
      | some b => exact ⟨b, rfl⟩
    obtain ⟨df, hdf⟩ : ∃ df, env.readCsv b = some df := by
      have h1 := hr b
      cases hx : env.readCsv b with
      | none => rw [hx] at h1; simp at h1
      | some df => exact ⟨df, rfl⟩
    have hput := hp (processedKey pfx f)
    rw [moveLoop_cons_ok env pfx st f rest b df hb hdf hput]
    show s3lookup (moveLoop env pfx
      (eraseKey (s3put st (processedKey pfx f) (env.toParquet df)) f)
      rest).2.1 k = none
    rcases List.mem_cons.mp hk with hkf | hkrest
    · subst hkf
      have hnm : k ∉ rest := (List.nodup_cons.mp hnd).1
      rw [moveLoop_lookup_untouched env pfx rest _ k hnm (fun g _ => hnopk g)]
      rw [s3lookup_eraseKey, if_pos rfl]
    · have hkf : k ≠ f := by
        intro hc; subst hc; exact (List.nodup_cons.mp hnd).1 hkrest
      refine ih _ k (List.nodup_cons.mp hnd).2 hr hp ?_ hnopk hkrest
      intro g hg
      have hgf : g ≠ f := fun hc => (List.nodup_cons.mp hnd).1 (hc ▸ hg)
      rw [s3lookup_eraseKey, if_neg hgf, s3lookup_put]
      by_cases hpg : processedKey pfx f = g
      · rw [if_pos hpg]; simp
      · rw [if_neg hpg]; exact hpres g (List.mem_cons_of_mem f hg)

/-- Under all-success oracles, the parquet copy of every listed key is
present after the loop (the file list must consist of keys outside the
processed sub-prefix, as the selection guarantees). -/
theorem moveLoop_put_present (env : RotEnv) (pfx : String) :
    ∀ (L : List String) (st : S3State) (k : String),
      L.Nodup →
      (∀ b, (env.readCsv b).isSome = true) →
      (∀ q, env.putOk q = true) →
      (∀ f ∈ L, s3lookup st f ≠ none) →
      (∀ f ∈ L, strStarts (pfx ++ "processed") f = false) →
      k ∈ L →
      s3lookup (moveLoop env pfx st L).2.1 (processedKey pfx k) ≠ none := by
  intro L
  induction L with
  | nil => intro st k _ _ _ _ _ hk; simp at hk
  | cons f rest ih =>
    intro st k hnd hr hp hpres hLp hk
    have hbf : s3lookup st f ≠ none := hpres f (List.mem_cons_self f rest)
    obtain ⟨b, hb⟩ : ∃ b, s3lookup st f = some b := by
      cases hlb : s3lookup st f with
      | none => exact absurd hlb hbf
      | some b => exact ⟨b, rfl⟩
    obtain ⟨df, hdf⟩ : ∃ df, env.readCsv b = some df := by
      have h1 := hr b
      cases hx : env.readCsv b with
      | none => rw [hx] at h1; simp at h1
      | some df => exact ⟨df, rfl⟩
    have hput := hp (processedKey pfx f)
    rw [moveLoop_cons_ok env pfx st f rest b df hb hdf hput]
    show s3lookup (moveLoop env pfx
      (eraseKey (s3put st (processedKey pfx f) (env.toParquet df)) f)
      rest).2.1 (processedKey pfx k) ≠ none
    rcases List.mem_cons.mp hk with hkf | hkrest
    · subst hkf
      have hpkk : processedKey pfx k ≠ k := by
        intro hc
        have h1 := strStarts_processedKey pfx k
        rw [hc, hLp k (List.mem_cons_self k rest)] at h1
        simp at h1
      have hnm : processedKey pfx k ∉ rest := by
        intro hc
        have h1 := strStarts_processedKey pfx k
        rw [hLp _ (List.mem_cons_of_mem k hc)] at h1
        simp at h1
      refine moveLoop_presence env pfx rest _ _ hnm ?_
      rw [s3lookup_eraseKey, if_neg hpkk, s3lookup_put, if_pos rfl]
      simp
    · refine ih _ k (List.nodup_cons.mp hnd).2 hr hp ?_
        (fun g hg => hLp g (List.mem_cons_of_mem f hg)) hkrest
      intro g hg
      have hgf : g ≠ f := fun hc => (List.nodup_cons.mp hnd).1 (hc ▸ hg)
      rw [s3lookup_eraseKey, if_neg hgf, s3lookup_put]
      by_cases hpg : processedKey pfx f = g
      · rw [if_pos hpg]; simp
      · rw [if_neg hpg]; exact hpres g (List.mem_cons_of_mem f hg)

/-- When the conversion or the parquet put of a selected key fails, that
key is never deleted: the loop stops at the failing step, leaving the
source object in place. -/
theorem moveLoop_no_delete (env : RotEnv) (pfx : String) :
    ∀ (L : List String) (st : S3State) (k b : String),
      (∀ f, processedKey pfx f ≠ k) →
      s3lookup st k = some b →
      (env.readCsv b = none ∨ env.putOk (processedKey pfx k) = false) →
      S3Event.delE k ∉ (moveLoop env pfx st L).1 := by
  intro L
  induction L with
  | nil => intro st k b _ _ _ h; simp [moveLoop] at h
  | cons f rest ih =>
    intro st k b hnopk hb hfail
    by_cases hkf : k = f
    · subst hkf
      rcases hfail with hcsv | hput
      · rw [moveLoop_cons_badcsv env pfx st k rest b hb hcsv]
        simp
      · cases hrc : env.readCsv b with
        | none =>
          rw [moveLoop_cons_badcsv env pfx st k rest b hb hrc]
          simp
        | some df =>
          rw [moveLoop_cons_badput env pfx st k rest b df hb hrc hput]
          simp
    · cases hlb : s3lookup st f with
      | none => rw [moveLoop_cons_none env pfx st f rest hlb]; simp
      | some bf =>
        cases hrc : env.readCsv bf with
        | none => rw [moveLoop_cons_badcsv env pfx st f rest bf hlb hrc]; simp
        | some df =>
          cases hput : env.putOk (processedKey pfx f) with
          | false =>
            rw [moveLoop_cons_badput env pfx st f rest bf df hlb hrc hput]
            simp
          | true =>
            rw [moveLoop_cons_ok env pfx st f rest bf df hlb hrc hput]
            intro hmem
            simp only [List.mem_cons] at hmem
            rcases hmem with h1 | h1 | h1 | h1
            · exact S3Event.noConfusion h1
            · exact S3Event.noConfusion h1
            · exact hkf (by injection h1)
            · have hb2 : s3lookup
                  (eraseKey (s3put st (processedKey pfx f) (env.toParquet df)) f)
                  k = some b := by
                rw [s3lookup_eraseKey, if_neg hkf, s3lookup_put,
                  if_neg (hnopk f)]
                exact hb
              exact ih _ k b hnopk hb2 hfail h1

/-- Every delete in the loop's trace is preceded by a successful parquet
put to the corresponding processed destination. -/
theorem moveLoop_delete_after_put (env : RotEnv) (pfx : String) :
    ∀ (L : List String) (st : S3State) (k : String),
      S3Event.delE k ∈ (moveLoop env pfx st L).1 →
      ∃ l1 l2 bq, (moveLoop env pfx st L).1 = l1 ++ S3Event.delE k :: l2 ∧
        S3Event.putE (processedKey pfx k) bq ∈ l1 := by
  intro L
  induction L with
  | nil => intro st k h; simp [moveLoop] at h
  | cons f rest ih =>
    intro st k h
    cases hlb : s3lookup st f with
    | none => rw [moveLoop_cons_none env pfx st f rest hlb] at h; simp at h
    | some bf =>
      cases hrc : env.readCsv bf with
      | none =>
        rw [moveLoop_cons_badcsv env pfx st f rest bf hlb hrc] at h
        simp at h
      | some df =>
        cases hput : env.putOk (processedKey pfx f) with
        | false =>
          rw [moveLoop_cons_badput env pfx st f rest bf df hlb hrc hput] at h
          simp at h
        | true =>
          rw [moveLoop_cons_ok env pfx st f rest bf df hlb hrc hput] at h ⊢
          simp only [List.mem_cons] at h
          rcases h with h1 | h1 | h1 | h1
          · exact S3Event.noConfusion h1
          · exact S3Event.noConfusion h1
          · have hkf : k = f := by injection h1
            subst hkf
            refine ⟨[S3Event.getE k,
              S3Event.putE (processedKey pfx k) (env.toParquet df)],
              (moveLoop env pfx
                (eraseKey (s3put st (processedKey pfx k) (env.toParquet df)) k)
                rest).1, env.toParquet df, rfl, ?_⟩
            simp
          · obtain ⟨l1, l2, bq, heq, hmem⟩ := ih _ k h1
            refine ⟨S3Event.getE f ::
              S3Event.putE (processedKey pfx f) (env.toParquet df) ::
              S3Event.delE f :: l1, l2, bq, ?_, ?_⟩
            · show S3Event.getE f ::
                S3Event.putE (processedKey pfx f) (env.toParquet df) ::
                S3Event.delE f ::
                (moveLoop env pfx
                  (eraseKey (s3put st (processedKey pfx f) (env.toParquet df)) f)
                  rest).1 = _
              rw [heq]
              simp
            · exact List.mem_cons_of_mem _ (List.mem_cons_of_mem _
                (List.mem_cons_of_mem _ hmem))

/-- The guard `if len(file_list) != 0` is behaviourally the same as
running the loop on the (possibly empty) file list. -/
theorem moveCsv_eq_loop (env : RotEnv) (pfx : String) (dateList : List String)
    (st : S3State) :
    moveCsvToProcessed env pfx dateList st =
      moveLoop env pfx st ((keysOf st).filter (rotSel pfx dateList)) := by
  simp only [moveCsvToProcessed]
  split
  · rfl
  · rename_i h
    have h0 : ((keysOf st).filter (rotSel pfx dateList)) = [] :=
      List.length_eq_zero.mp (not_ne_iff.mp h)
    rw [h0]
    rfl

/- ------------------------------------------------------------------ -/
/- Claims C5 and C6.                                                   -/
/- ------------------------------------------------------------------ -/

/-- Counterexample for claim C5: a stored object whose key ends in
`.csv`, lies under the table prefix, is not under the `processed/`
sub-prefix, and whose trailing date component is outside the batch date
set — so the claim says rotation must convert and remove it — is left
completely untouched, because the code's skip condition matches the bare
prefix `processed` without the slash and the key continues with
`processed_`. -/
theorem c5_counterexample :
    strEnds ".csv" "de/avc/FR/tbl/processed_2024-01-01.csv" = true ∧
    strStarts "de/avc/FR/tbl/" "de/avc/FR/tbl/processed_2024-01-01.csv" = true ∧
    strStarts ("de/avc/FR/tbl/" ++ "processed/")
      "de/avc/FR/tbl/processed_2024-01-01.csv" = false ∧
    dateComponent "de/avc/FR/tbl/processed_2024-01-01.csv" = "2024-01-01" ∧
    (["2024-01-02"].contains
      (dateComponent "de/avc/FR/tbl/processed_2024-01-01.csv")) = false ∧
    (moveCsvToProcessed ⟨some, fun d => d, fun _ => true⟩ "de/avc/FR/tbl/"
      ["2024-01-02"]
      [("de/avc/FR/tbl/processed_2024-01-01.csv", "rows")]).2.1 =
      [("de/avc/FR/tbl/processed_2024-01-01.csv", "rows")] := by
  refine ⟨by decide, by decide, by decide, by decide, by decide, ?_⟩
  rfl

/-- Claim C5 as amended: for a bucket with distinct keys, when parsing and
puts succeed, rotation removes exactly those stored `.csv` keys under the
table prefix whose key does not continue with `processed` right after the
prefix (the code matches the bare `processed` prefix, slash or not) and
whose trailing date component is not in the batch date list; each removed
key gets a parquet copy under the `processed/` sub-prefix; and every other
key keeps its stored value, provided no selected file's processed
destination collides with it. -/
theorem c5_rotation_amended (env : RotEnv) (pfx : String)
    (dateList : List String) (st : S3State)
    (hnd : (keysOf st).Nodup)
    (hr : ∀ b, (env.readCsv b).isSome = true)
    (hp : ∀ q, env.putOk q = true) :
    (∀ k, s3lookup st k ≠ none →
      (s3lookup (moveCsvToProcessed env pfx dateList st).2.1 k = none ↔
        rotSel pfx dateList k = true)) ∧
    (∀ k, s3lookup st k ≠ none → rotSel pfx dateList k = true →
      s3lookup (moveCsvToProcessed env pfx dateList st).2.1
        (processedKey pfx k) ≠ none) ∧
    (∀ k, rotSel pfx dateList k = false →
      (∀ f, s3lookup st f ≠ none → rotSel pfx dateList f = true →
        processedKey pfx f ≠ k) →
      s3lookup (moveCsvToProcessed env pfx dateList st).2.1 k =
        s3lookup st k) := by
  rw [moveCsv_eq_loop env pfx dateList st]
  have hLnd : ((keysOf st).filter (rotSel pfx dateList)).Nodup := hnd.filter _
  have hmemL : ∀ f, f ∈ (keysOf st).filter (rotSel pfx dateList) ↔
      f ∈ keysOf st ∧ rotSel pfx dateList f = true := fun f => List.mem_filter
  have hpres : ∀ f ∈ (keysOf st).filter (rotSel pfx dateList),
      s3lookup st f ≠ none := fun f hf =>
    (s3lookup_ne_none_iff_mem f st).mpr ((hmemL f).mp hf).1
  refine ⟨?_, ?_, ?_⟩
  · intro k hk
    constructor
    · intro hnone
      by_contra hsel
      have hkL : k ∉ (keysOf st).filter (rotSel pfx dateList) :=
        fun hc => hsel ((hmemL k).mp hc).2
      exact moveLoop_presence env pfx _ st k hkL hk hnone
    · intro hsel
      have hkL : k ∈ (keysOf st).filter (rotSel pfx dateList) :=
        (hmemL k).mpr ⟨(s3lookup_ne_none_iff_mem k st).mp hk, hsel⟩
      exact moveLoop_deleted env pfx _ st k hLnd hr hp hpres
        (fun f => (rotSel_ne_processedKey pfx dateList k f hsel).symm) hkL
  · intro k hk hsel
    have hkL : k ∈ (keysOf st).filter (rotSel pfx dateList) :=
      (hmemL k).mpr ⟨(s3lookup_ne_none_iff_mem k st).mp hk, hsel⟩
    have hLp : ∀ f ∈ (keysOf st).filter (rotSel pfx dateList),
        strStarts (pfx ++ "processed") f = false := by
      intro f hf
      have hs := ((hmemL f).mp hf).2
      unfold rotSel at hs
      simp only [Bool.and_eq_true, Bool.not_eq_true'] at hs
      exact hs.1.1.1
    exact moveLoop_put_present env pfx _ st k hLnd hr hp hpres hLp hkL
  · intro k hselF hnoc
    have hkL : k ∉ (keysOf st).filter (rotSel pfx dateList) := by
      intro hc
      rw [((hmemL k).mp hc).2] at hselF
      exact Bool.noConfusion hselF
    have hpk : ∀ f ∈ (keysOf st).filter (rotSel pfx dateList),
        processedKey pfx f ≠ k := fun f hf =>
      hnoc f (hpres f hf) ((hmemL f).mp hf).2
    exact moveLoop_lookup_untouched env pfx _ st k hkL hpk

/-- Witness for the amended C5, on the spec scenario: with stored keys
`tblX_2024-01-01.csv` and `tblX_2024-01-02.csv` and batch date set
`{2024-01-02}`, the 01-01 file is removed and gains a parquet copy under
`processed/`, while the 01-02 file keeps its bytes. -/
theorem c5_rotation_amended_witness :
    s3lookup (moveCsvToProcessed ⟨some, fun d => d, fun _ => true⟩
      "de/avc/DE/tblX/" ["2024-01-02"]
      [("de/avc/DE/tblX/tblX_2024-01-01.csv", "r1"),
       ("de/avc/DE/tblX/tblX_2024-01-02.csv", "r2")]).2.1
      "de/avc/DE/tblX/tblX_2024-01-01.csv" = none ∧
    s3lookup (moveCsvToProcessed ⟨some, fun d => d, fun _ => true⟩
      "de/avc/DE/tblX/" ["2024-01-02"]
      [("de/avc/DE/tblX/tblX_2024-01-01.csv", "r1"),
       ("de/avc/DE/tblX/tblX_2024-01-02.csv", "r2")]).2.1
      (processedKey "de/avc/DE/tblX/" "de/avc/DE/tblX/tblX_2024-01-01.csv")
      ≠ none ∧
    s3lookup (moveCsvToProcessed ⟨some, fun d => d, fun _ => true⟩
      "de/avc/DE/tblX/" ["2024-01-02"]
      [("de/avc/DE/tblX/tblX_2024-01-01.csv", "r1"),
       ("de/avc/DE/tblX/tblX_2024-01-02.csv", "r2")]).2.1
      "de/avc/DE/tblX/tblX_2024-01-02.csv" = some "r2" := by
  have hthm := c5_rotation_amended ⟨some, fun d => d, fun _ => true⟩
    "de/avc/DE/tblX/" ["2024-01-02"]
    [("de/avc/DE/tblX/tblX_2024-01-01.csv", "r1"),
     ("de/avc/DE/tblX/tblX_2024-01-02.csv", "r2")]
    (by decide) (fun b => rfl) (fun q => rfl)
  refine ⟨(hthm.1 _ (by decide)).mpr (by decide),
    hthm.2.1 _ (by decide) (by decide), ?_⟩
  have h3 := hthm.2.2 "de/avc/DE/tblX/tblX_2024-01-02.csv" (by decide) ?_
  · rw [h3]; rfl
  · intro f hf hsel
    by_cases h1 : "de/avc/DE/tblX/tblX_2024-01-01.csv" = f
    · rw [← h1]; decide
    · by_cases h2 : "de/avc/DE/tblX/tblX_2024-01-02.csv" = f
      · rw [← h2]; decide
      · exfalso
        apply hf
        simp [s3lookup, h1, h2]

/-- Claim C6: in every execution of historical-file rotation, whatever the
oracle outcomes, a delete of a source key appears in the effect trace only
after a successful parquet put to its `processed/` destination; and if the
CSV conversion or the parquet put for a selected key fails, that key is
never deleted. -/
theorem c6_convert_then_delete (env : RotEnv) (pfx : String)
    (dateList : List String) (st : S3State) :
    (∀ k, S3Event.delE k ∈ (moveCsvToProcessed env pfx dateList st).1 →
      ∃ l1 l2 bq, (moveCsvToProcessed env pfx dateList st).1 =
          l1 ++ S3Event.delE k :: l2 ∧
        S3Event.putE (processedKey pfx k) bq ∈ l1) ∧
    (∀ k b, rotSel pfx dateList k = true → s3lookup st k = some b →
      (env.readCsv b = none ∨ env.putOk (processedKey pfx k) = false) →
      S3Event.delE k ∉ (moveCsvToProcessed env pfx dateList st).1) := by
  rw [moveCsv_eq_loop env pfx dateList st]
  refine ⟨?_, ?_⟩
  · intro k h
    exact moveLoop_delete_after_put env pfx _ st k h
  · intro k b hsel hb hfail
    exact moveLoop_no_delete env pfx _ st k b
      (fun f => (rotSel_ne_processedKey pfx dateList k f hsel).symm) hb hfail

/-- Witness for C6: in an all-success run over one stored CSV the delete
is present and preceded by the parquet put, and in a run whose put always
fails the source key is never deleted. -/
theorem c6_convert_then_delete_witness :
    (S3Event.delE "p/t_2024-03-01.csv" ∈
      (moveCsvToProcessed ⟨some, fun d => d, fun _ => true⟩ "p/" []
        [("p/t_2024-03-01.csv", "data")]).1 ∧
      ∃ l1 l2 bq,
        (moveCsvToProcessed ⟨some, fun d => d, fun _ => true⟩ "p/" []
          [("p/t_2024-03-01.csv", "data")]).1 =
          l1 ++ S3Event.delE "p/t_2024-03-01.csv" :: l2 ∧
        S3Event.putE (processedKey "p/" "p/t_2024-03-01.csv") bq ∈ l1) ∧
    S3Event.delE "p/t_2024-03-01.csv" ∉
      (moveCsvToProcessed ⟨some, fun d => d, fun _ => false⟩ "p/" []
        [("p/t_2024-03-01.csv", "data")]).1 :=
  ⟨⟨by decide,
    (c6_convert_then_delete ⟨some, fun d => d, fun _ => true⟩ "p/" []
      [("p/t_2024-03-01.csv", "data")]).1 "p/t_2024-03-01.csv" (by decide)⟩,
   (c6_convert_then_delete ⟨some, fun d => d, fun _ => false⟩ "p/" []
      [("p/t_2024-03-01.csv", "data")]).2 "p/t_2024-03-01.csv" "data"
      (by decide) (by decide) (Or.inr rfl)⟩
